import Mathlib

/-!
Verification of the redditgram aggregation pipeline against its
natural-language specification.

The definitions below are shallow embeddings of the TypeScript source:

* `extractMediaUrls`, `normalizeChild`   — src/services/reddit.ts (media
  extraction chain v4 and the post-normalization map inside `getPosts`);
* `interleavePosts`, `performFetch`      — src/app/page.tsx;
* `rlCheck`, `rateLimitConfigs`          — lib/rate-limiter.ts
  (`InMemoryRateLimiter.check`);
* `EnhancedCache.set/get`, `cacheKeysReddit` — lib/cache.ts;
* `getAccessToken`                       — src/app/api/reddit/route.ts;
* `limitSchema`, `routeHandleLimit`      — lib/validation.ts and the `GET`
  handler of src/app/api/reddit/route.ts.

JavaScript conventions carried over explicitly: string truthiness (the empty
string is falsy), `||` / `??` fallbacks, `Map` keyed state modelled as
association lists or total functions into `Option`, `Date.now()` passed as an
explicit `now : Nat` argument, and network / KV effects passed as explicit
oracle arguments so that every definition is a pure function.
-/

/-- JS truthiness on an optional string field: `undefined` and `""` are both
falsy.  `optStr o` is `some s` exactly when the field holds a truthy string. -/
def optStr (o : Option String) : Option String :=
  match o with
  | some s => if s = "" then none else some s
  | none => none

/-- Does `p` occur as a contiguous run inside the character list? -/
def charsContains (p : List Char) : List Char → Bool
  | [] => p.isPrefixOf ([] : List Char)
  | c :: t => p.isPrefixOf (c :: t) || charsContains p t

/-- Substring test, mirroring JS `String.prototype.includes` for the patterns
used by the source (".mp4", "DASHPlaylist.mpd", ".m3u8", ...). -/
def strContains (s pat : String) : Bool :=
  charsContains pat.data s.data

/-- Suffix test, mirroring JS `String.prototype.endsWith`. -/
def strEndsWith (s suffix : String) : Bool :=
  suffix.data.isSuffixOf s.data

/-- ASCII lowercasing of one character (what JS `toLowerCase` does on the
ASCII URLs this code inspects). -/
def charLower (c : Char) : Char :=
  if 65 ≤ c.toNat ∧ c.toNat ≤ 90 then Char.ofNat (c.toNat + 32) else c

/-- ASCII lowercasing, mirroring JS `String.prototype.toLowerCase` on URLs. -/
def strToLower (s : String) : String :=
  ⟨s.data.map charLower⟩

-- ========================================================================
-- Raw Reddit payload shapes (route.ts `RedditPostData`, services/reddit.ts)
-- ========================================================================

/-- One gallery item reference (`gallery_data.items[i]`). -/
structure GalleryItem where
  media_id : String
deriving DecidableEq

/-- One resolution entry of `media_metadata[id].p` / the `s` source entry. -/
structure MediaAsset where
  u : String
deriving DecidableEq

/-- `media_metadata[id]`: preview representations `p` (absent ≡ empty, the
source checks `p && p.length > 0`) and optional source representation `s`. -/
structure MediaMeta where
  p : List MediaAsset := []
  s : Option MediaAsset := none
deriving DecidableEq

/-- `media.reddit_video` / `preview.reddit_video_preview`. -/
structure RedditVideo where
  fallback_url : Option String := none
deriving DecidableEq

/-- `media.oembed`. -/
structure OEmbedInfo where
  thumbnail_url : Option String := none
deriving DecidableEq

/-- `media` / `secure_media`. -/
structure MediaField where
  reddit_video : Option RedditVideo := none
  oembed : Option OEmbedInfo := none
deriving DecidableEq

/-- `preview.images[i].source`. -/
structure PreviewSource where
  url : String
deriving DecidableEq

/-- `preview.images[i]`. -/
structure PreviewImage where
  source : PreviewSource
deriving DecidableEq

/-- `preview`. -/
structure PreviewField where
  images : List PreviewImage := []
  reddit_video_preview : Option RedditVideo := none
deriving DecidableEq

/-- The fields of a raw Reddit post consulted by the extraction chain and the
normalization map, minus the crosspost list (the source only ever reads
`crosspost_parent_list[0]` and never recurses further, so parents carry no
crosspost list of their own). -/
structure RedditPostDataCore where
  id : String := ""
  title : String := ""
  subreddit : String := ""
  url : String := ""
  url_overridden_by_dest : Option String := none
  is_video : Bool := false
  is_gallery : Bool := false
  media : Option MediaField := none
  secure_media : Option MediaField := none
  preview : Option PreviewField := none
  gallery_data : Option (List GalleryItem) := none
  media_metadata : Option (List (String × MediaMeta)) := none
deriving DecidableEq

/-- A raw Reddit post as consumed by `getPosts`' map function. -/
structure RedditPostData extends RedditPostDataCore where
  crosspost_parent_list : List RedditPostDataCore := []
deriving DecidableEq

/-- The normalized post record (services/reddit.ts `RedditPost`).  The
optional TS field `isUnplayableVideoFormat?` is always set by the producing
code, so it is a plain `Bool` here. -/
structure RedditPost where
  title : String
  mediaUrls : List String
  subreddit : String
  postId : String
  isUnplayableVideoFormat : Bool
deriving DecidableEq

-- ========================================================================
-- Media extraction chain (services/reddit.ts `extractMediaUrls`, v4)
-- ========================================================================

/-- `media_metadata[mediaId]` lookup (plain JS object property access). -/
def lookupMeta (mm : List (String × MediaMeta)) (k : String) : Option MediaMeta :=
  (mm.find? (fun kv => kv.1 = k)).map (·.2)

/-- Best URL for one gallery item: last (highest-resolution) `p` entry,
falling back to the `s` source entry; `""` means nothing usable. -/
def galleryBest (m : MediaMeta) : String :=
  let b1 := match m.p.getLast? with
    | some a => a.u
    | none => ""
  if b1 ≠ "" then b1
  else match m.s with
    | some a => a.u
    | none => ""

/-- Step 1 of the chain: gallery URLs in listed item order.  Empty unless
`is_gallery` with both `gallery_data.items` and `media_metadata` present. -/
def galleryUrls (d : RedditPostDataCore) : List String :=
  if d.is_gallery then
    match d.gallery_data, d.media_metadata with
    | some items, some mm =>
        items.filterMap (fun it =>
          match lookupMeta mm it.media_id with
          | none => none
          | some m =>
              let b := galleryBest m
              if b = "" then none else some b)
    | _, _ => []
  else []

/-- `postDetail.media?.reddit_video || postDetail.secure_media?.reddit_video`. -/
def redditVideoField (d : RedditPostDataCore) : Option RedditVideo :=
  match d.media.bind (·.reddit_video) with
  | some rv => some rv
  | none => d.secure_media.bind (·.reddit_video)

/-- The source's direct-playable test on a `fallback_url`: contains ".mp4"
and is neither a DASH playlist nor an HLS manifest. -/
def playableMp4 (f : String) : Bool :=
  strContains f ".mp4" && !strContains f "DASHPlaylist.mpd" && !strContains f ".m3u8"

/-- Step 2 of the chain: the direct playable video fallback URL, when the
reddit-video `fallback_url` exists, is truthy and passes `playableMp4`. -/
def step2Url (d : RedditPostDataCore) : Option String :=
  match redditVideoField d with
  | some rv =>
      match optStr rv.fallback_url with
      | some f => if playableMp4 f then some f else none
      | none => none
  | none => none

/-- Step 3 of the chain: `preview.reddit_video_preview.fallback_url`. -/
def step3Url (d : RedditPostDataCore) : Option String :=
  d.preview.bind (fun pv => pv.reddit_video_preview.bind (fun rv => optStr rv.fallback_url))

/-- Step 4 of the chain: the resolved destination URL
(`url_overridden_by_dest || url`) when it carries a static-image extension. -/
def step4Url (d : RedditPostDataCore) : Option String :=
  let f := match optStr d.url_overridden_by_dest with
    | some u => u
    | none => d.url
  if f = "" then none
  else
    let l := strToLower f
    if strEndsWith l ".jpg" || strEndsWith l ".jpeg" || strEndsWith l ".png"
        || strEndsWith l ".gif" || strEndsWith l ".webp" then
      some f
    else none

/-- Step 5 of the chain: oEmbed thumbnail
(`media?.oembed || secure_media?.oembed`) with an image-looking URL. -/
def step5Url (d : RedditPostDataCore) : Option String :=
  let oe := match d.media.bind (·.oembed) with
    | some o => some o
    | none => d.secure_media.bind (·.oembed)
  match oe with
  | some o =>
      match optStr o.thumbnail_url with
      | some t =>
          let l := strToLower t
          if strContains l ".jpg" || strContains l ".png" || strContains l ".jpeg" then
            some t
          else none
      | none => none
  | none => none

/-- Step 6 of the chain (also reused by the normalization map as the
unplayable-video preview substitute): `preview?.images?.[0]?.source?.url`. -/
def step6Url (d : RedditPostDataCore) : Option String :=
  d.preview.bind (fun pv =>
    match pv.images with
    | [] => none
    | i :: _ => if i.source.url = "" then none else some i.source.url)

/-- services/reddit.ts `extractMediaUrls` (v4).  The imperative chain pushes
into one array guarded by a single `extracted` flag, so it returns either the
gallery URLs, or the single URL of the first later step that fires, or `[]`. -/
def extractMediaUrls (d : RedditPostDataCore) : List String :=
  let g := galleryUrls d
  if g ≠ [] then g
  else match step2Url d with
  | some u => [u]
  | none => match step3Url d with
    | some u => [u]
    | none => match step4Url d with
      | some u => [u]
      | none => match step5Url d with
        | some u => [u]
        | none => match step6Url d with
          | some u => [u]
          | none => []

-- ========================================================================
-- Normalization map (services/reddit.ts `getPosts`, the `.map` callback)
-- ========================================================================

/-- The video-reconciliation block of the map callback, shared verbatim
between the direct post and its crosspost parent: given the video flag, the
extracted URLs and the preview-image substitute, produce the surviving URLs
and the unplayable flag, or `none` when the post is dropped. -/
def reconcileVideo (flagged : Bool) (urls : List String) (preview : Option String) :
    Option (List String × Bool) :=
  match urls with
  | [] =>
      if flagged then
        match preview with
        | some u => some ([u], true)
        | none => none
      else some ([], false)
  | u :: rest =>
      if flagged && !strEndsWith u ".mp4" then some (u :: rest, true)
      else some (u :: rest, false)

/-- The crosspost-parent retry block: only runs when the direct post yielded
no URL, a parent exists, and the parent id differs from the post id. -/
def crossStep (d : RedditPostData) (uf : List String × Bool) :
    Option (List String × Bool) :=
  if uf.1.isEmpty then
    match d.crosspost_parent_list with
    | parent :: _ =>
        if parent.id = d.id then some uf
        else
          match reconcileVideo parent.is_video (extractMediaUrls parent) (step6Url parent) with
          | none => none
          | some (u2, f2) => some (u2, uf.2 || f2)
    | [] => some uf
  else some uf

/-- Final construction: build the post only if some URL survived. -/
def assemblePost (sub : String) (d : RedditPostData) (uf : List String × Bool) :
    Option RedditPost :=
  if uf.1.isEmpty then none
  else some
    { title := d.title
      mediaUrls := uf.1
      subreddit := if d.subreddit = "" then sub else d.subreddit
      postId := d.id
      isUnplayableVideoFormat := uf.2 }

/-- The whole map callback of `getPosts`: extraction, video reconciliation,
crosspost retry, and conditional construction.  `none` means the raw item is
mapped to `null` and filtered out. -/
def normalizeChild (sub : String) (d : RedditPostData) : Option RedditPost :=
  (reconcileVideo d.is_video (extractMediaUrls d.toRedditPostDataCore)
      (step6Url d.toRedditPostDataCore)).bind
    (fun uf => (crossStep d uf).bind (assemblePost sub d))

/-- "Step 2 supplied the surviving URL": the gallery step produced nothing and
the direct playable video fallback fired.  This is the classification
condition the specification asserts (claim C3); the code uses a different
test. -/
def step2Supplies (d : RedditPostDataCore) : Bool :=
  decide (galleryUrls d = []) && (step2Url d).isSome

/-- The classification condition the code actually implements: the item whose
extraction produced the surviving URLs (the raw item, or its crosspost parent
in the retry path) is video-flagged, and its extraction either yielded
nothing (so the preview image substitutes) or yielded a first URL that does
not end in ".mp4". -/
def unplayableSpec (d : RedditPostData) : Bool :=
  let s := extractMediaUrls d.toRedditPostDataCore
  if d.is_video then s.isEmpty || !strEndsWith (s.headD "") ".mp4"
  else if s.isEmpty then
    match d.crosspost_parent_list with
    | parent :: _ =>
        if parent.id = d.id then false
        else
          let p := extractMediaUrls parent
          parent.is_video && (p.isEmpty || !strEndsWith (p.headD "") ".mp4")
    | [] => false
  else false

-- ========================================================================
-- Interleaving (src/app/page.tsx `interleavePosts`)
-- ========================================================================

/-- page.tsx `interleavePosts`: round j picks element j of every group that
still has one, in group order; rounds run up to the longest group's length.
Generic in the element type (the source fixes it to `RedditPost`). -/
def interleavePosts {α : Type} (groupedPosts : List (List α)) : List α :=
  if groupedPosts.isEmpty then []
  else
    let maxLength := (groupedPosts.map List.length).foldl Nat.max 0
    ((List.range maxLength).map
      (fun j => groupedPosts.filterMap (fun g => g[j]?))).flatten

/-- The specification's description of the merge, written independently of
the source: take the heads of all non-exhausted lists in order, then recurse
on the tails. -/
def roundRobinMerge {α : Type} (gs : List (List α)) : List α :=
  if h : gs.all List.isEmpty then []
  else
    gs.filterMap List.head? ++ roundRobinMerge (gs.map List.tail)
termination_by (gs.map List.length).sum
decreasing_by
  simp only [List.all_eq_true, List.isEmpty_iff] at h
  push_neg at h
  obtain ⟨g, hg, hne⟩ := h
  rw [List.map_map]
  refine List.sum_lt_sum _ _ (fun x _ => ?_) ⟨g, hg, ?_⟩
  · simp only [Function.comp_apply, List.length_tail]
    omega
  · simp only [Function.comp_apply, List.length_tail]
    cases g with
    | nil => exact absurd rfl hne
    | cons a t => simp


-- ========================================================================
-- Aggregation (src/app/page.tsx `performFetch`)
-- ========================================================================

/-- page.tsx `isValidSubreddit`: non-empty, alphanumerics and underscores. -/
def isValidSubreddit (s : String) : Bool :=
  s ≠ "" && s.toList.all (fun c => c.isAlphanum || c = '_')

/-- `Except.isOk` spelled out (used to phrase settled-result hypotheses). -/
def exceptOk {ε α : Type} : Except ε α → Bool
  | .ok _ => true
  | .error _ => false

/-- The two hard failures `performFetch` can throw: the pre-fetch validation
error ("Invalid subreddit name found.") and the all-channels-failed aggregate
error ("All subreddit fetches failed. First error"). -/
inductive PFError where
  | invalidName : PFError
  | allFailed : PFError
deriving DecidableEq

/-- The successful return value of `performFetch`.  Cursor maps are modelled
as total functions `String → Option String`; the component reads tokens only
through `?? undefined` / `?? null` and `!== null` tests, which identify an
absent key with a stored `null`, so `none` stands for both. -/
structure PFOutput where
  groupedPosts : List (List RedditPost)
  updatedAfterTokens : String → Option String
  anyHasMore : Bool

/-- The per-post metadata step inside `performFetch`: tag each post with the
requesting subreddit (`isUnplayableVideoFormat ?? false` is the identity in
this model, where the flag is a plain `Bool`). -/
def withMetadata (sub : String) (posts : List RedditPost) : List RedditPost :=
  posts.map (fun p => { p with subreddit := sub })

/-- page.tsx `performFetch`.  The per-channel `getPosts` calls are settled
concurrently by `Promise.allSettled`; their outcomes enter the model as the
oracle `fetch : String → Except String (posts, nextCursor)`, one settled
result per channel. -/
def performFetch (subs : List String)
    (fetch : String → Except String (List RedditPost × Option String))
    (cur : String → Option String) : Except PFError PFOutput :=
  if subs.isEmpty then .ok ⟨[], fun _ => none, false⟩
  else if !subs.all isValidSubreddit then .error .invalidName
  else
    let newTok : String → Option String := fun s =>
      match fetch s with
      | .ok r => r.2
      | .error _ => cur s
    let anyFailed := subs.any (fun s => !exceptOk (fetch s))
    let successes := subs.filter (fun s => exceptOk (fetch s))
    if anyFailed && successes.isEmpty then .error .allFailed
    else .ok
      { groupedPosts := subs.filterMap (fun s =>
          match fetch s with
          | .ok r => some (withMetadata s r.1)
          | .error _ => none)
        updatedAfterTokens := fun s => if s ∈ subs then newTok s else cur s
        anyHasMore := subs.any (fun s => (newTok s).isSome) }

-- ========================================================================
-- Rate limiter (lib/rate-limiter.ts `InMemoryRateLimiter`)
-- ========================================================================

/-- `{ maxRequests, windowMs, keyPrefix }`. -/
structure RateLimitConfig where
  maxRequests : Nat
  windowMs : Nat
  keyPrefix : String := ""
deriving DecidableEq

/-- `{ success, remaining, resetTime }` (`remaining` is an `Int` because the
source computes `config.maxRequests - 1` on JS numbers). -/
structure RateLimitResult where
  success : Bool
  remaining : Int
  resetTime : Nat
deriving DecidableEq

/-- One entry of the limiter's `Map`: `{ count, resetTime }`. -/
structure RateEntry where
  count : Nat
  resetTime : Nat
deriving DecidableEq

/-- The limiter's keyed store, as a total function (iteration order of the
backing `Map` is irrelevant to `cleanup`/`check`). -/
abbrev RLStore := String → Option RateEntry

/-- The empty store. -/
def rlEmpty : RLStore := fun _ => none

/-- `InMemoryRateLimiter.cleanup`: drop every entry whose window elapsed. -/
def rlCleanup (now : Nat) (st : RLStore) : RLStore := fun k =>
  match st k with
  | some e => if now > e.resetTime then none else some e
  | none => none

/-- `Map.set` on the store. -/
def rlSet (st : RLStore) (k : String) (e : RateEntry) : RLStore := fun q =>
  if q = k then some e else st q

/-- `InMemoryRateLimiter.check`: cleanup, then fixed-window counting. -/
def rlCheck (st : RLStore) (key : String) (cfg : RateLimitConfig) (now : Nat) :
    RateLimitResult × RLStore :=
  let st1 := rlCleanup now st
  let windowStart := now + cfg.windowMs
  match st1 key with
  | none =>
      (⟨true, (cfg.maxRequests : Int) - 1, windowStart⟩, rlSet st1 key ⟨1, windowStart⟩)
  | some e =>
      if now > e.resetTime then
        (⟨true, (cfg.maxRequests : Int) - 1, windowStart⟩, rlSet st1 key ⟨1, windowStart⟩)
      else if e.count ≥ cfg.maxRequests then
        (⟨false, 0, e.resetTime⟩, st1)
      else
        (⟨true, (cfg.maxRequests : Int) - (e.count + 1 : Nat), e.resetTime⟩,
         rlSet st1 key ⟨e.count + 1, e.resetTime⟩)

/-- Run a sequence of `check` calls for one identity, returning the store. -/
def rlRun (key : String) (cfg : RateLimitConfig) (st : RLStore) (ts : List Nat) : RLStore :=
  ts.foldl (fun s t => (rlCheck s key cfg t).2) st

/-- The two endpoint configurations of `rateLimitConfigs`. -/
structure RateLimitConfigs where
  reddit : RateLimitConfig
  general : RateLimitConfig
deriving DecidableEq

/-- lib/rate-limiter.ts `rateLimitConfigs`: 60 requests per hour for the
upstream-listing endpoint, 100 per 15 minutes for general traffic. -/
def rateLimitConfigs : RateLimitConfigs :=
  { reddit := ⟨60, 60 * 60 * 1000, "reddit-api"⟩
    general := ⟨100, 15 * 60 * 1000, "general-api"⟩ }

-- ========================================================================
-- Response cache (lib/cache.ts `EnhancedCache`, `cacheKeys`)
-- ========================================================================

/-- lib/cache.ts `CacheEntry<T>`. -/
structure CacheEntry (T : Type) where
  data : T
  timestamp : Nat
  expiresAt : Nat
  accessCount : Nat
  lastAccessed : Nat
deriving DecidableEq

/-- lib/cache.ts `EnhancedCache<T>`: the backing `Map` is an insertion-ordered
association list (JS `Map` iterates in insertion order and `set` on an
existing key keeps its position). -/
structure EnhancedCache (T : Type) where
  maxSize : Nat := 100
  defaultTTL : Nat := 5 * 60 * 1000
  cache : List (String × CacheEntry T) := []
deriving DecidableEq

/-- `Map.has`. -/
def mapHas {T : Type} (l : List (String × CacheEntry T)) (k : String) : Bool :=
  l.any (fun kv => kv.1 = k)

/-- `Map.set`: update in place, or append. -/
def mapSet {T : Type} (l : List (String × CacheEntry T)) (k : String)
    (e : CacheEntry T) : List (String × CacheEntry T) :=
  if mapHas l k then l.map (fun kv => if kv.1 = k then (k, e) else kv)
  else l ++ [(k, e)]

/-- `Map.delete`. -/
def mapDelete {T : Type} (l : List (String × CacheEntry T)) (k : String) :
    List (String × CacheEntry T) :=
  l.filter (fun kv => !(kv.1 = k : Bool))

/-- The loop body of `evictLRU`: remember this entry's key when its
`lastAccessed` is strictly below the running minimum. -/
def evictStep {T : Type} (acc : Nat × Option String) (kv : String × CacheEntry T) :
    Nat × Option String :=
  if kv.2.lastAccessed < acc.1 then (kv.2.lastAccessed, some kv.1) else acc

/-- The scan inside `evictLRU`: fold over the entries in order, keeping the
first key whose `lastAccessed` is strictly below the running minimum, which
starts at `Date.now()`. -/
def evictScan {T : Type} (now : Nat) (l : List (String × CacheEntry T)) :
    Nat × Option String :=
  l.foldl evictStep (now, none)

/-- `EnhancedCache.evictLRU`: delete the scanned key if one was found (the
source guards with JS truthiness, so an empty-string key is never deleted). -/
def EnhancedCache.evictLRU {T : Type} (c : EnhancedCache T) (now : Nat) :
    EnhancedCache T :=
  match (evictScan now c.cache).2 with
  | some k => if k = "" then c else { c with cache := mapDelete c.cache k }
  | none => c

/-- `EnhancedCache.set`: evict first when at capacity with a new key, then
insert the fresh entry (`ttl ?? defaultTTL`). -/
def EnhancedCache.set {T : Type} (c : EnhancedCache T) (k : String) (v : T)
    (ttl : Option Nat) (now : Nat) : EnhancedCache T :=
  let expiresAt := now + ttl.getD c.defaultTTL
  let c1 := if c.maxSize ≤ c.cache.length && !mapHas c.cache k then c.evictLRU now else c
  { c1 with cache := mapSet c1.cache k ⟨v, now, expiresAt, 0, now⟩ }

/-- `EnhancedCache.get`: expired entries are deleted and miss; hits bump the
access statistics. -/
def EnhancedCache.get {T : Type} (c : EnhancedCache T) (k : String) (now : Nat) :
    Option T × EnhancedCache T :=
  match c.cache.find? (fun kv => kv.1 = k) with
  | none => (none, c)
  | some (_, e) =>
      if now > e.expiresAt then (none, { c with cache := mapDelete c.cache k })
      else
        (some e.data,
         { c with cache := c.cache.map (fun kv =>
             if kv.1 = k then
               (kv.1, { e with accessCount := e.accessCount + 1, lastAccessed := now })
             else kv) })

/-- lib/cache.ts `cacheKeys.reddit`: absent (or empty, JS truthiness) optional
fields are omitted from the colon-joined key rather than replaced by a
placeholder. -/
def cacheKeysReddit (subreddit sort : String) (timeFrame after : Option String) :
    String :=
  let parts := ["reddit", subreddit, sort]
  let parts := match optStr timeFrame with
    | some t => parts ++ [t]
    | none => parts
  let parts := match optStr after with
    | some a => parts ++ [a]
    | none => parts
  String.intercalate ":" parts

-- ========================================================================
-- Credential cache (route.ts `getAccessToken`)
-- ========================================================================

/-- The upstream token-exchange payload: `{ access_token, expires_in }`
(`expires_in` is a duration in seconds). -/
structure TokenResponse where
  access_token : String
  expires_in : Nat
deriving DecidableEq

/-- The KV slot backing `reddit_access_token`: the stored token together with
its absolute expiry deadline (set via the `ex:` TTL), or `none`. -/
abbrev KvTokenState := Option (String × Nat)

/-- `kv.get<string>('reddit_access_token')`: the value while the TTL has not
elapsed (JS truthiness also discards an empty-string token). -/
def kvGetToken (st : KvTokenState) (now : Nat) : Option String :=
  match st with
  | some (t, deadline) => if now < deadline then (if t = "" then none else some t) else none
  | none => none

/-- route.ts `getAccessToken`: return the cached token when present,
otherwise perform the credential exchange (passed in as the oracle
`exchange`) and store the token with TTL `expires_in - 60` seconds.  The
result carries the token, the new KV state, and the number of upstream
exchanges performed (0 or 1). -/
def getAccessToken (st : KvTokenState) (now : Nat)
    (exchange : Except String TokenResponse) :
    Except String (String × KvTokenState × Nat) :=
  match kvGetToken st now with
  | some t => .ok (t, st, 0)
  | none =>
      match exchange with
      | .error e => .error ("Failed to get access token: " ++ e)
      | .ok resp =>
          if resp.access_token = "" then .error "No access token received from Reddit"
          else .ok (resp.access_token,
                    some (resp.access_token, now + (resp.expires_in - 60)), 1)

-- ========================================================================
-- Request validation (lib/validation.ts `limitSchema`, route.ts `GET`)
-- ========================================================================

/-- lib/validation.ts `limitSchema`, after `parseInt`: a zod
`z.number().min(1).max(100)` pipe, which VALIDATES the bounds — an
out-of-range value produces a validation error, it is not clamped. -/
def limitSchema (n : Int) : Except String Int :=
  if n < 1 then .error "Limit must be at least 1"
  else if n > 100 then .error "Limit cannot exceed 100"
  else .ok n

/-- Outcome of the `GET` handler slice relevant to the `limit` parameter:
the HTTP status, whether the upstream Reddit fetch was reached, and the limit
value used in the upstream URL when it was. -/
structure RouteOutcome where
  status : Nat
  upstreamCalled : Bool
  usedLimit : Option Int
deriving DecidableEq

/-- The `GET` handler of route.ts, sliced to the control flow around the
`limit` parameter: rate limiting (429), then `redditApiQuerySchema`
validation (400 on failure, before any token or upstream call), then the
upstream fetch with the validated — unchanged — limit. -/
def routeHandleLimit (rateAllowed : Bool) (limitParam : Int) : RouteOutcome :=
  if !rateAllowed then ⟨429, false, none⟩
  else
    match limitSchema limitParam with
    | .error _ => ⟨400, false, none⟩
    | .ok l => ⟨200, true, some l⟩

-- ========================================================================
-- Concrete instances used by counterexamples and witnesses
-- ========================================================================

/-- A raw video post whose reddit-video fallback is a DASH manifest (step 2
fires nothing) and whose video-preview fallback (step 3) is a direct `.mp4`. -/
def videoWithMp4Preview : RedditPostData :=
  { id := "cex3"
    title := "t"
    subreddit := "pics"
    is_video := true
    media := some { reddit_video := some { fallback_url := some "https://v.redd.it/abc/DASHPlaylist.mpd" } }
    preview := some { reddit_video_preview := some { fallback_url := some "https://v.redd.it/abc/x.mp4" } } }

/-- A raw video post with no usable video URL but a preview image: the
normalizer substitutes the preview and flags the post unplayable. -/
def videoWithOnlyPreview : RedditPostData :=
  { id := "wit3"
    is_video := true
    preview := some { images := [{ source := { url := "https://i.redd.it/p.jpg" } }] } }

/-- A plain direct-image post (used to witness the non-empty-media invariant). -/
def plainImagePost : RedditPostData :=
  { id := "wit4"
    title := "img"
    subreddit := "pics"
    url := "https://i.redd.it/a.png" }

/-- A normalized post used as input data for aggregation examples. -/
def samplePost (tag : String) : RedditPost :=
  { title := tag
    mediaUrls := ["https://i.redd.it/" ++ tag ++ ".jpg"]
    subreddit := ""
    postId := tag
    isUnplayableVideoFormat := false }

/-- Fetch oracle for the partial-failure example: channel "a" succeeds with
five posts and nextCursor "c1", every other channel fails. -/
def partialFetch : String → Except String (List RedditPost × Option String) :=
  fun s =>
    if s = "a" then .ok ([samplePost "p1", samplePost "p2", samplePost "p3", samplePost "p4", samplePost "p5"], some "c1")
    else .error "fetch failed"

/-- Fetch oracle where every channel fails. -/
def totalFailFetch : String → Except String (List RedditPost × Option String) :=
  fun _ => .error "fetch failed"

/-- A one-slot cache at capacity whose single entry was last accessed at the
same clock value the next `set` call will observe. -/
def tieCache : EnhancedCache Nat :=
  { maxSize := 1
    defaultTTL := 1000
    cache := [("a", { data := 7, timestamp := 0, expiresAt := 1000, accessCount := 0, lastAccessed := 5 })] }

/-- A two-slot cache at capacity with distinct last-access times, used to
witness LRU eviction. -/
def lruCache : EnhancedCache Nat :=
  { maxSize := 2
    defaultTTL := 1000
    cache :=
      [("a", { data := 1, timestamp := 0, expiresAt := 1000, accessCount := 0, lastAccessed := 1 }),
       ("b", { data := 2, timestamp := 0, expiresAt := 1000, accessCount := 3, lastAccessed := 3 })] }

-- ========================================================================
-- C2: interleaving is the round-robin merge
-- ========================================================================

theorem getElem?_zero_eq_head {α : Type} (g : List α) : g[0]? = g.head? := by
  cases g <;> simp

theorem getElem?_succ_eq_tail {α : Type} (g : List α) (j : Nat) :
    g[j + 1]? = g.tail[j]? := by
  cases g <;> simp

theorem foldl_max_init_le (l : List Nat) : ∀ a : Nat, a ≤ l.foldl Nat.max a := by
  induction l with
  | nil => intro a; exact Nat.le_refl a
  | cons b l ih =>
      intro a
      exact le_trans (Nat.le_max_left a b) (ih (Nat.max a b))

theorem mem_le_foldl_max (l : List Nat) : ∀ (a x : Nat), x ∈ l → x ≤ l.foldl Nat.max a := by
  induction l with
  | nil => intro a x hx; simp at hx
  | cons b l ih =>
      intro a x hx
      rcases List.mem_cons.mp hx with rfl | hmem
      · exact le_trans (Nat.le_max_right a x) (foldl_max_init_le l (Nat.max a x))
      · exact ih (Nat.max a b) x hmem

/-- Expanding the round-based interleaving to the heads-then-tails recursion,
for any number of rounds covering every list. -/
theorem rounds_eq_roundRobinMerge {α : Type} :
    ∀ (R : Nat) (gs : List (List α)), (∀ g ∈ gs, g.length ≤ R) →
      ((List.range R).map (fun j => gs.filterMap (fun g => g[j]?))).flatten
        = roundRobinMerge gs := by
  intro R
  induction R with
  | zero =>
      intro gs hlen
      have hall : gs.all List.isEmpty = true := by
        simp only [List.all_eq_true, List.isEmpty_iff]
        intro g hg
        exact List.length_eq_zero.mp (Nat.le_zero.mp (hlen g hg))
      rw [roundRobinMerge, dif_pos hall]
      simp
  | succ R ih =>
      intro gs hlen
      by_cases hall : gs.all List.isEmpty = true
      · rw [roundRobinMerge, dif_pos hall]
        simp only [List.all_eq_true, List.isEmpty_iff] at hall
        have hnone : ∀ j : Nat, gs.filterMap (fun g => g[j]?) = [] := by
          intro j
          rw [List.filterMap_eq_nil_iff]
          intro g hg
          rw [hall g hg]
          simp
        simp [hnone]
      · rw [roundRobinMerge, dif_neg hall]
        rw [List.range_succ_eq_map, List.map_cons, List.flatten_cons, List.map_map]
        congr 1
        · simp only [getElem?_zero_eq_head]
        · have hcomp :
              ((List.range R).map ((fun j => gs.filterMap (fun g => g[j]?)) ∘ Nat.succ))
                = (List.range R).map (fun j => (gs.map List.tail).filterMap (fun g => g[j]?)) := by
            refine List.map_congr_left ?_
            intro j _
            simp only [Function.comp_apply, List.filterMap_map]
            refine List.filterMap_congr ?_
            intro g _
            simp only [Function.comp_apply]
            exact getElem?_succ_eq_tail g j
          rw [hcomp]
          refine ih (gs.map List.tail) ?_
          intro t ht
          rcases List.mem_map.mp ht with ⟨g, hg, rfl⟩
          have := hlen g hg
          simp only [List.length_tail]
          omega

/-- C2.  For every list of per-channel post lists, `interleavePosts` returns
the round-robin merge described by the specification (take index j of every
non-exhausted list in channel order, round by round); in particular
`[[a1, a2], [b1], []]` yields `[a1, b1, a2]`. -/
theorem interleavePosts_is_round_robin :
    (∀ (α : Type) (gs : List (List α)), interleavePosts gs = roundRobinMerge gs)
      ∧ interleavePosts [[1, 2], [3], ([] : List Nat)] = [1, 3, 2] := by
  constructor
  · intro α gs
    rw [interleavePosts]
    by_cases hgs : gs.isEmpty
    · rw [if_pos hgs]
      have : gs = [] := List.isEmpty_iff.mp hgs
      subst this
      rw [roundRobinMerge]
      simp
    · rw [if_neg hgs]
      refine rounds_eq_roundRobinMerge _ gs ?_
      intro g hg
      exact mem_le_foldl_max (gs.map List.length) 0 g.length (List.mem_map_of_mem List.length hg)
  · rfl

-- ========================================================================
-- C4: normalized posts never have empty mediaUrls
-- ========================================================================

/-- C4.  Every post produced by the normalization map has at least one media
URL: an item for which no URL survives the extraction chain (including the
crosspost-parent retry) is dropped, never constructed with empty
`mediaUrls`. -/
theorem normalize_mediaUrls_nonempty (sub : String) (d : RedditPostData)
    (p : RedditPost) (h : normalizeChild sub d = some p) :
    1 ≤ p.mediaUrls.length := by
  rw [normalizeChild] at h
  rcases Option.bind_eq_some.mp h with ⟨uf, _h1, h2⟩
  rcases Option.bind_eq_some.mp h2 with ⟨uf2, _h3, h4⟩
  rw [assemblePost] at h4
  by_cases he : uf2.1.isEmpty = true
  · rw [if_pos he] at h4
    exact absurd h4 (by simp)
  · rw [if_neg he] at h4
    have hp := Option.some_inj.mp h4
    have : p.mediaUrls = uf2.1 := by rw [← hp]
    rw [this]
    rcases huf : uf2.1 with _ | ⟨x, xs⟩
    · rw [huf] at he; simp at he
    · simp

/-- Witness for C4 at a concrete direct-image post. -/
theorem normalize_mediaUrls_nonempty_witness :
    normalizeChild "x" plainImagePost = some
      { title := "img"
        mediaUrls := ["https://i.redd.it/a.png"]
        subreddit := "pics"
        postId := "wit4"
        isUnplayableVideoFormat := false }
    ∧ 1 ≤ (({ title := "img"
              mediaUrls := ["https://i.redd.it/a.png"]
              subreddit := "pics"
              postId := "wit4"
              isUnplayableVideoFormat := false } : RedditPost)).mediaUrls.length :=
  ⟨by decide, normalize_mediaUrls_nonempty "x" plainImagePost _ (by decide)⟩

-- ========================================================================
-- C3: the unplayable-video classification
-- ========================================================================

/-- Characterization of the video-reconciliation block on success: the flag
is set iff the item was video-flagged and the extracted URLs were empty or
began with a non-`.mp4` URL; the URL list is passed through unless the
preview was substituted. -/
theorem reconcileVideo_eq_some (fl : Bool) (urls : List String) (pv : Option String)
    (u2 : List String) (f2 : Bool)
    (h : reconcileVideo fl urls pv = some (u2, f2)) :
    f2 = (fl && (urls.isEmpty || !strEndsWith (urls.headD "") ".mp4"))
    ∧ (urls.isEmpty = false → u2 = urls)
    ∧ (fl = false → u2 = urls)
    ∧ (u2.isEmpty = true → urls.isEmpty = true ∧ fl = false) := by
  cases urls with
  | nil =>
      cases fl with
      | false =>
          simp only [reconcileVideo, Bool.false_eq_true, if_false, Option.some_inj] at h
          rcases Prod.mk.injEq .. ▸ h with ⟨hu, hf⟩
          subst hu; subst hf
          simp
      | true =>
          cases pv with
          | none => simp [reconcileVideo] at h
          | some u =>
              simp only [reconcileVideo, if_true, Option.some_inj] at h
              rcases Prod.mk.injEq .. ▸ h with ⟨hu, hf⟩
              subst hu; subst hf
              simp
  | cons u rest =>
      by_cases hc : (fl && !strEndsWith u ".mp4") = true
      · simp only [reconcileVideo, hc, if_true, Option.some_inj] at h
        rcases Prod.mk.injEq .. ▸ h with ⟨hu, hf⟩
        subst hu; subst hf
        refine ⟨by simp_all, fun _ => rfl, fun hfl => rfl, fun hemp => by simp at hemp⟩
      · simp only [reconcileVideo, hc, Bool.false_eq_true, if_false, Option.some_inj] at h
        rcases Prod.mk.injEq .. ▸ h with ⟨hu, hf⟩
        subst hu; subst hf
        refine ⟨by simp_all, fun _ => rfl, fun hfl => rfl, fun hemp => by simp at hemp⟩

/-- C3 (amended).  For every raw item the normalizer keeps,
`isUnplayableVideo` is true iff the item whose extraction produced the
surviving URLs — the raw item, or its crosspost parent in the retry path —
was video-flagged and its extraction either yielded nothing (the preview
image substitutes) or yielded a first URL not ending in ".mp4"; and
`mediaUrls` is never empty. -/
theorem normalize_unplayable_iff (sub : String) (d : RedditPostData) (p : RedditPost)
    (h : normalizeChild sub d = some p) :
    p.isUnplayableVideoFormat = unplayableSpec d ∧ p.mediaUrls ≠ [] := by
  rw [normalizeChild] at h
  rcases Option.bind_eq_some.mp h with ⟨⟨u1, f1⟩, h1, h2⟩
  rcases Option.bind_eq_some.mp h2 with ⟨⟨u2, f2⟩, h3, h4⟩
  rw [assemblePost] at h4
  by_cases he : u2.isEmpty = true
  · simp [he] at h4
  · simp only [he, Bool.false_eq_true, if_false, if_neg] at h4
    rcases Option.some_inj.mp h4 with h4'
    have hflag : p.isUnplayableVideoFormat = f2 := by rw [← h4']
    have hmedia : p.mediaUrls = u2 := by rw [← h4']
    have hne : p.mediaUrls ≠ [] := by
      rw [hmedia]
      intro hnil
      rw [hnil] at he
      simp at he
    refine ⟨?_, hne⟩
    rw [hflag]
    have hd := reconcileVideo_eq_some _ _ _ _ _ h1
    by_cases h1e : u1.isEmpty = true
    · -- the crosspost path ran
      obtain ⟨hde, hdv⟩ := hd.2.2.2 h1e
      cases hcp : d.crosspost_parent_list with
      | nil =>
          simp only [crossStep, h1e, if_true, hcp, Option.some_inj] at h3
          rcases Prod.mk.injEq .. ▸ h3 with ⟨hu, _⟩
          rw [← hu] at he
          exact absurd h1e (by simp [he])
      | cons parent rest =>
          by_cases hid : parent.id = d.id
          · simp only [crossStep, h1e, if_true, hcp, hid, if_pos, Option.some_inj] at h3
            rcases Prod.mk.injEq .. ▸ h3 with ⟨hu, _⟩
            rw [← hu] at he
            exact absurd h1e (by simp [he])
          · rcases hrp : reconcileVideo parent.is_video (extractMediaUrls parent) (step6Url parent)
              with _ | ⟨⟨up, fp⟩⟩
            · simp only [crossStep, h1e, if_true, hcp, hid, if_false, hrp] at h3
              exact absurd h3 (by simp)
            · simp only [crossStep, h1e, if_true, hcp, hid, if_false, hrp,
                Option.some_inj] at h3
              rcases Prod.mk.injEq .. ▸ h3 with ⟨_, hf⟩
              have hp := reconcileVideo_eq_some _ _ _ _ _ hrp
              rw [← hf, hp.1]
              have hf1 : f1 = false := by
                rw [hd.1, hdv]
                simp
              rw [hf1]
              simp only [Bool.false_or]
              rw [unplayableSpec]
              simp only [hdv, Bool.false_eq_true, if_false, hde, if_true, hcp, hid]
    · -- the direct path survived: crossStep is the identity
      simp only [crossStep, h1e, Bool.false_eq_true, if_false, Option.some_inj] at h3
      rcases Prod.mk.injEq .. ▸ h3 with ⟨_, hf⟩
      rw [← hf, hd.1]
      cases hv : d.is_video with
      | true =>
          rw [unplayableSpec]
          simp [hv]
      | false =>
          have hu1 : u1 = extractMediaUrls d.toRedditPostDataCore := hd.2.2.1 hv
          have hse : (extractMediaUrls d.toRedditPostDataCore).isEmpty = false := by
            rw [← hu1]
            simpa using h1e
          rw [unplayableSpec]
          simp [hv, hse]

/-- Counterexample to C3 as stated: a video-flagged post whose direct
playable fallback is a DASH manifest (step 2 supplies nothing) but whose
step-3 video-preview URL ends in ".mp4".  The claim's iff demands
`isUnplayableVideo = true` (video-flagged and step 2 did not supply the
surviving URL); the code produces the post with the flag `false`, because it
tests the ".mp4" suffix of the surviving URL, not step-2 provenance. -/
theorem unplayable_flag_not_step2_provenance :
    (normalizeChild "pics" videoWithMp4Preview).map RedditPost.isUnplayableVideoFormat
      = some false
    ∧ videoWithMp4Preview.is_video = true
    ∧ step2Supplies videoWithMp4Preview.toRedditPostDataCore = false :=
  ⟨by decide, rfl, by decide⟩

/-- Witness for the amended C3 at a video post with a preview image only. -/
theorem normalize_unplayable_iff_witness :
    normalizeChild "r" videoWithOnlyPreview = some
      { title := ""
        mediaUrls := ["https://i.redd.it/p.jpg"]
        subreddit := "r"
        postId := "wit3"
        isUnplayableVideoFormat := true }
    ∧ (({ title := ""
          mediaUrls := ["https://i.redd.it/p.jpg"]
          subreddit := "r"
          postId := "wit3"
          isUnplayableVideoFormat := true } : RedditPost)).isUnplayableVideoFormat
        = unplayableSpec videoWithOnlyPreview
    ∧ (({ title := ""
          mediaUrls := ["https://i.redd.it/p.jpg"]
          subreddit := "r"
          postId := "wit3"
          isUnplayableVideoFormat := true } : RedditPost)).mediaUrls ≠ [] :=
  ⟨by decide,
   (normalize_unplayable_iff "r" videoWithOnlyPreview _ (by decide)).1,
   (normalize_unplayable_iff "r" videoWithOnlyPreview _ (by decide)).2⟩

-- ========================================================================
-- C1 / C5: aggregation under partial and total failure
-- ========================================================================

theorem filterMap_eq_filter_map {α β : Type} (l : List α) (f : α → Option β)
    (p : α → Bool) (g : α → β)
    (hfg : ∀ a, f a = if p a then some (g a) else none) :
    l.filterMap f = (l.filter p).map g := by
  induction l with
  | nil => simp
  | cons a t ih =>
      by_cases hp : p a = true
      · rw [List.filterMap_cons, hfg a, if_pos hp, List.filter_cons, if_pos hp,
          List.map_cons, ih]
      · rw [List.filterMap_cons, hfg a, if_neg hp, List.filter_cons, if_neg hp, ih]

theorem any_congr_mem {α : Type} (l : List α) (p q : α → Bool)
    (h : ∀ a ∈ l, p a = q a) : l.any p = l.any q := by
  induction l with
  | nil => simp
  | cons a t ih =>
      simp only [List.any_cons]
      rw [h a (List.mem_cons_self a t), ih (fun b hb => h b (List.mem_cons_of_mem a hb))]

/-- C1.  When at least one channel succeeds and at least one fails, the
aggregated fetch returns normally (no thrown error): the grouped output holds
exactly the successful channels' posts in request order, every failed channel
keeps its previous cursor, every successful channel's cursor becomes the
returned `nextCursor`, and `anyHasMore` is true iff some requested channel's
returned cursor is non-null. -/
theorem performFetch_partial_failure
    (subs : List String)
    (fetch : String → Except String (List RedditPost × Option String))
    (cur : String → Option String)
    (hv : subs.all isValidSubreddit = true)
    (hs : ∃ a ∈ subs, exceptOk (fetch a) = true)
    (hf : ∃ b ∈ subs, exceptOk (fetch b) = false) :
    ∃ out, performFetch subs fetch cur = .ok out
      ∧ out.groupedPosts = (subs.filter (fun s => exceptOk (fetch s))).map
          (fun s => withMetadata s (match fetch s with
            | .ok r => r.1
            | .error _ => []))
      ∧ (∀ s ∈ subs, exceptOk (fetch s) = false → out.updatedAfterTokens s = cur s)
      ∧ (∀ s ∈ subs, ∀ r, fetch s = .ok r → out.updatedAfterTokens s = r.2)
      ∧ out.anyHasMore = subs.any (fun s => (out.updatedAfterTokens s).isSome) := by
  obtain ⟨a, ha, hsa⟩ := hs
  obtain ⟨b, hb, hfb⟩ := hf
  have hnonempty : subs.isEmpty = false := by
    cases subs with
    | nil => simp at ha
    | cons x t => simp
  have hvv : (!subs.all isValidSubreddit) = false := by rw [hv]; rfl
  have hsucc : (subs.filter (fun s => exceptOk (fetch s))).isEmpty = false := by
    rcases hemp : (subs.filter (fun s => exceptOk (fetch s))).isEmpty with _ | _
    · rfl
    · exfalso
      rw [List.isEmpty_iff] at hemp
      have : a ∈ subs.filter (fun s => exceptOk (fetch s)) := by
        rw [List.mem_filter]
        exact ⟨ha, hsa⟩
      rw [hemp] at this
      simp at this
  rw [performFetch, if_neg (by simp [hnonempty]), if_neg (by simp [hv])]
  rw [if_neg (by simp [hsucc])]
  refine ⟨_, rfl, ?_, ?_, ?_, ?_⟩
  · refine filterMap_eq_filter_map subs _ _ _ ?_
    intro s
    cases hfs : fetch s with
    | ok r => simp [exceptOk, hfs]
    | error e => simp [exceptOk, hfs]
  · intro s hsmem hserr
    simp only
    rw [if_pos hsmem]
    cases hfs : fetch s with
    | ok r => rw [hfs] at hserr; simp [exceptOk] at hserr
    | error e => rfl
  · intro s hsmem r hfs
    simp only
    rw [if_pos hsmem, hfs]
  · simp only
    refine (any_congr_mem subs _ _ ?_).symm
    intro s hsmem
    rw [if_pos hsmem]

/-- Witness for C1: aggregating ["a", "b"] where "a" succeeds with five posts
and nextCursor "c1" while "b" fails. -/
theorem performFetch_partial_failure_witness :
    (["a", "b"].all isValidSubreddit = true
      ∧ (∃ s ∈ ["a", "b"], exceptOk (partialFetch s) = true)
      ∧ (∃ s ∈ ["a", "b"], exceptOk (partialFetch s) = false))
    ∧ ∃ out, performFetch ["a", "b"] partialFetch (fun _ => none) = .ok out
        ∧ out.groupedPosts = ((["a", "b"].filter (fun s => exceptOk (partialFetch s))).map
            (fun s => withMetadata s (match partialFetch s with
              | .ok r => r.1
              | .error _ => [])))
        ∧ (∀ s ∈ ["a", "b"], exceptOk (partialFetch s) = false →
            out.updatedAfterTokens s = (fun (_ : String) => (none : Option String)) s)
        ∧ (∀ s ∈ ["a", "b"], ∀ r, partialFetch s = .ok r → out.updatedAfterTokens s = r.2)
        ∧ out.anyHasMore = ["a", "b"].any (fun s => (out.updatedAfterTokens s).isSome) :=
  ⟨⟨by decide, ⟨"a", by decide, by decide⟩, ⟨"b", by decide, by decide⟩⟩,
   performFetch_partial_failure ["a", "b"] partialFetch (fun _ => none)
     (by decide) ⟨"a", by decide, by decide⟩ ⟨"b", by decide, by decide⟩⟩

/-- C5.  When every requested channel fails (and at least one channel was
requested), the whole aggregated fetch fails with the aggregate error and
delivers no partial result. -/
theorem performFetch_total_failure
    (subs : List String)
    (fetch : String → Except String (List RedditPost × Option String))
    (cur : String → Option String)
    (hne : subs.isEmpty = false)
    (hv : subs.all isValidSubreddit = true)
    (hall : subs.all (fun s => !exceptOk (fetch s)) = true) :
    performFetch subs fetch cur = .error PFError.allFailed := by
  have hfilter : (subs.filter (fun s => exceptOk (fetch s))).isEmpty = true := by
    rw [List.isEmpty_iff, List.filter_eq_nil_iff]
    intro s hsmem
    have := (List.all_eq_true.mp hall) s hsmem
    simp only [Bool.not_eq_true'] at this
    simp [this]
  have hany : subs.any (fun s => !exceptOk (fetch s)) = true := by
    cases hsubs : subs with
    | nil => rw [hsubs] at hne; simp at hne
    | cons x t =>
        rw [hsubs] at hall
        have hx := (List.all_eq_true.mp hall) x (List.mem_cons_self x t)
        rw [List.any_eq_true]
        exact ⟨x, List.mem_cons_self x t, hx⟩
  rw [performFetch, if_neg (by simp [hne]), if_neg (by simp [hv]),
    if_pos (by simp [hany, hfilter])]

/-- Witness for C5: both requested channels fail. -/
theorem performFetch_total_failure_witness :
    (["a", "b"].isEmpty = false
      ∧ ["a", "b"].all isValidSubreddit = true
      ∧ ["a", "b"].all (fun s => !exceptOk (totalFailFetch s)) = true)
    ∧ performFetch ["a", "b"] totalFailFetch (fun _ => none) = .error PFError.allFailed :=
  ⟨⟨by decide, by decide, by decide⟩,
   performFetch_total_failure ["a", "b"] totalFailFetch (fun _ => none)
     (by decide) (by decide) (by decide)⟩

-- ========================================================================
-- C6: fixed-window rate limiting at the reddit endpoint config
-- ========================================================================

theorem rlRun_cons (key : String) (cfg : RateLimitConfig) (st : RLStore)
    (t : Nat) (ts : List Nat) :
    rlRun key cfg st (t :: ts) = rlRun key cfg ((rlCheck st key cfg t).2) ts := rfl

theorem rlCleanup_keeps (st : RLStore) (key : String) (t c R : Nat)
    (hst : st key = some ⟨c, R⟩) (ht : t ≤ R) :
    (rlCleanup t st) key = some ⟨c, R⟩ := by
  simp only [rlCleanup, hst]
  rw [if_neg (by omega)]

theorem rlCleanup_sweeps (st : RLStore) (key : String) (t c R : Nat)
    (hst : st key = some ⟨c, R⟩) (ht : R < t) :
    (rlCleanup t st) key = none := by
  simp only [rlCleanup, hst]
  rw [if_pos (by omega)]

theorem rlCheck_increments (st : RLStore) (key : String) (cfg : RateLimitConfig)
    (t c R : Nat) (hst : st key = some ⟨c, R⟩) (ht : t ≤ R)
    (hc : c < cfg.maxRequests) :
    rlCheck st key cfg t
      = (⟨true, (cfg.maxRequests : Int) - ((c : Nat) + 1 : Nat), R⟩,
         rlSet (rlCleanup t st) key ⟨c + 1, R⟩) := by
  have hclean := rlCleanup_keeps st key t c R hst ht
  rw [rlCheck]
  simp only [hclean]
  rw [if_neg (by omega), if_neg (by omega)]

theorem rlCheck_rejects (st : RLStore) (key : String) (cfg : RateLimitConfig)
    (t c R : Nat) (hst : st key = some ⟨c, R⟩) (ht : t ≤ R)
    (hc : cfg.maxRequests ≤ c) :
    rlCheck st key cfg t = (⟨false, 0, R⟩, rlCleanup t st) := by
  have hclean := rlCleanup_keeps st key t c R hst ht
  rw [rlCheck]
  simp only [hclean]
  rw [if_neg (by omega), if_pos (by omega)]

theorem rlCheck_fresh (st : RLStore) (key : String) (cfg : RateLimitConfig)
    (t : Nat) (h : (rlCleanup t st) key = none) :
    rlCheck st key cfg t
      = (⟨true, (cfg.maxRequests : Int) - 1, t + cfg.windowMs⟩,
         rlSet (rlCleanup t st) key ⟨1, t + cfg.windowMs⟩) := by
  rw [rlCheck]
  simp only [h]

theorem rlSet_self (st : RLStore) (key : String) (e : RateEntry) :
    (rlSet st key e) key = some e := by
  rw [rlSet, if_pos rfl]

/-- Running further checks within the identity's window increments its count
by one per call (as long as the cap is not reached). -/
theorem rlRun_within_window (key : String) (cfg : RateLimitConfig) :
    ∀ (ts : List Nat) (st : RLStore) (c R : Nat),
      st key = some ⟨c, R⟩ → ts.all (fun t => t ≤ R) = true →
      c + ts.length ≤ cfg.maxRequests →
      (rlRun key cfg st ts) key = some ⟨c + ts.length, R⟩ := by
  intro ts
  induction ts with
  | nil =>
      intro st c R hst hts hle
      simpa using hst
  | cons t ts ih =>
      intro st c R hst hts hle
      simp only [List.all_cons, Bool.and_eq_true, decide_eq_true_eq] at hts
      obtain ⟨ht, hts'⟩ := hts
      have hlen : c + (t :: ts).length = (c + 1) + ts.length := by
        simp only [List.length_cons]
        omega
      rw [rlRun_cons,
        rlCheck_increments st key cfg t c R hst ht
          (by simp only [List.length_cons] at hle; omega)]
      rw [hlen]
      exact ih (rlSet (rlCleanup t st) key ⟨c + 1, R⟩) (c + 1) R
        (rlSet_self _ key _) hts'
        (by simp only [List.length_cons] at hle; omega)

/-- C6.  With the upstream-listing configuration (maxRequests 60, window one
hour), 60 checks for one identity inside the window fill its count; the 61st
check within the window is rejected with `remaining = 0` and `resetAt`
unchanged, leaving the identity's window entry untouched; and the first check
after the window elapses is allowed again with the count reset to 1. -/
theorem rateLimit_61st_rejected_then_window_resets
    (key : String) (t0 t61 tafter : Nat) (ts : List Nat)
    (h59 : ts.length = 59)
    (hts : ts.all (fun t => t ≤ t0 + 3600000) = true)
    (h61 : t61 ≤ t0 + 3600000)
    (hafter : t0 + 3600000 < tafter) :
    (rlCheck (rlRun key rateLimitConfigs.reddit rlEmpty (t0 :: ts))
        key rateLimitConfigs.reddit t61).1 = ⟨false, 0, t0 + 3600000⟩
    ∧ (rlCheck (rlRun key rateLimitConfigs.reddit rlEmpty (t0 :: ts))
        key rateLimitConfigs.reddit t61).2 key
      = (rlRun key rateLimitConfigs.reddit rlEmpty (t0 :: ts)) key
    ∧ (rlCheck ((rlCheck (rlRun key rateLimitConfigs.reddit rlEmpty (t0 :: ts))
          key rateLimitConfigs.reddit t61).2) key rateLimitConfigs.reddit tafter).1.success
      = true
    ∧ (rlCheck ((rlCheck (rlRun key rateLimitConfigs.reddit rlEmpty (t0 :: ts))
          key rateLimitConfigs.reddit t61).2) key rateLimitConfigs.reddit tafter).2 key
      = some ⟨1, tafter + 3600000⟩ := by
  have hwin : rateLimitConfigs.reddit.windowMs = 3600000 := rfl
  have hmax : rateLimitConfigs.reddit.maxRequests = 60 := rfl
  -- the first call creates the entry ⟨1, t0 + 3600000⟩
  have hfresh : (rlCleanup t0 rlEmpty) key = none := rfl
  have h1 := rlCheck_fresh rlEmpty key rateLimitConfigs.reddit t0 hfresh
  have h1key : ((rlCheck rlEmpty key rateLimitConfigs.reddit t0).2) key
      = some ⟨1, t0 + 3600000⟩ := by
    rw [h1]
    simpa [hwin] using rlSet_self (rlCleanup t0 rlEmpty) key ⟨1, t0 + rateLimitConfigs.reddit.windowMs⟩
  have hrun : (rlRun key rateLimitConfigs.reddit rlEmpty (t0 :: ts)) key
      = some ⟨60, t0 + 3600000⟩ := by
    rw [rlRun_cons]
    have := rlRun_within_window key rateLimitConfigs.reddit ts
      ((rlCheck rlEmpty key rateLimitConfigs.reddit t0).2) 1 (t0 + 3600000)
      h1key hts (by rw [hmax, h59])
    rw [this, h59]
  -- the 61st call is rejected and does not touch the entry
  have h61r := rlCheck_rejects _ key rateLimitConfigs.reddit t61 60 (t0 + 3600000)
    hrun h61 (by rw [hmax])
  have hkeep61 : (rlCheck (rlRun key rateLimitConfigs.reddit rlEmpty (t0 :: ts))
      key rateLimitConfigs.reddit t61).2 key = some ⟨60, t0 + 3600000⟩ := by
    rw [h61r]
    exact rlCleanup_keeps _ key t61 60 (t0 + 3600000) hrun h61
  -- after the window elapses the entry is swept and the call is allowed again
  have hclean : (rlCleanup tafter
      ((rlCheck (rlRun key rateLimitConfigs.reddit rlEmpty (t0 :: ts))
        key rateLimitConfigs.reddit t61).2)) key = none :=
    rlCleanup_sweeps _ key tafter 60 (t0 + 3600000) hkeep61 hafter
  have hafterr := rlCheck_fresh _ key rateLimitConfigs.reddit tafter hclean
  refine ⟨by rw [h61r], by rw [hkeep61, hrun], by rw [hafterr], ?_⟩
  rw [hafterr]
  simpa [hwin] using rlSet_self _ key ⟨1, tafter + rateLimitConfigs.reddit.windowMs⟩

/-- Witness for C6: sixty calls at time 0, a 61st call at time 0, and a call
one millisecond after the hour window closes. -/
theorem rateLimit_61st_rejected_then_window_resets_witness :
    ((List.replicate 59 0).length = 59
      ∧ (List.replicate 59 0).all (fun t => t ≤ 0 + 3600000) = true
      ∧ 0 ≤ 0 + 3600000 ∧ 0 + 3600000 < 3600001)
    ∧ (rlCheck (rlRun "203.0.113.7" rateLimitConfigs.reddit rlEmpty (0 :: List.replicate 59 0))
        "203.0.113.7" rateLimitConfigs.reddit 0).1 = ⟨false, 0, 0 + 3600000⟩
    ∧ (rlCheck ((rlCheck (rlRun "203.0.113.7" rateLimitConfigs.reddit rlEmpty
          (0 :: List.replicate 59 0)) "203.0.113.7" rateLimitConfigs.reddit 0).2)
        "203.0.113.7" rateLimitConfigs.reddit 3600001).2 "203.0.113.7"
      = some ⟨1, 3600001 + 3600000⟩ :=
  ⟨⟨by decide, by decide, by decide, by decide⟩,
   (rateLimit_61st_rejected_then_window_resets "203.0.113.7" 0 0 3600001
      (List.replicate 59 0) (by decide) (by decide) (by decide) (by decide)).1,
   (rateLimit_61st_rejected_then_window_resets "203.0.113.7" 0 0 3600001
      (List.replicate 59 0) (by decide) (by decide) (by decide) (by decide)).2.2.2⟩

-- ========================================================================
-- C7: LRU eviction on insertion at capacity
-- ========================================================================

/-- Characterization of the eviction scan: the final running minimum bounds
the start value and every entry, and either the accumulator was never beaten
or the result names an entry strictly below the start value. -/
theorem evictScan_fold_spec {T : Type} :
    ∀ (l : List (String × CacheEntry T)) (b : Nat) (o : Option String),
      (l.foldl evictStep (b, o)).1 ≤ b
      ∧ (∀ kv ∈ l, (l.foldl evictStep (b, o)).1 ≤ kv.2.lastAccessed)
      ∧ (l.foldl evictStep (b, o) = (b, o)
          ∨ ∃ kv ∈ l, l.foldl evictStep (b, o) = (kv.2.lastAccessed, some kv.1)
              ∧ kv.2.lastAccessed < b) := by
  intro l
  induction l with
  | nil =>
      intro b o
      exact ⟨Nat.le_refl b, by simp, Or.inl rfl⟩
  | cons kv0 l ih =>
      intro b o
      by_cases hc : kv0.2.lastAccessed < b
      · have hstep : (kv0 :: l).foldl evictStep (b, o)
            = l.foldl evictStep (kv0.2.lastAccessed, some kv0.1) := by
          rw [List.foldl_cons, evictStep, if_pos hc]
        obtain ⟨ih1, ih2, ih3⟩ := ih kv0.2.lastAccessed (some kv0.1)
        refine ⟨?_, ?_, ?_⟩
        · rw [hstep]; omega
        · intro kv hkv
          rcases List.mem_cons.mp hkv with rfl | hmem
          · rw [hstep]; exact ih1
          · rw [hstep]; exact ih2 kv hmem
        · rcases ih3 with heq | ⟨kv, hkv, heq, hlt⟩
          · exact Or.inr ⟨kv0, List.mem_cons_self kv0 l, by rw [hstep, heq], hc⟩
          · exact Or.inr ⟨kv, List.mem_cons_of_mem kv0 hkv, by rw [hstep, heq], by omega⟩
      · have hstep : (kv0 :: l).foldl evictStep (b, o) = l.foldl evictStep (b, o) := by
          rw [List.foldl_cons, evictStep, if_neg hc]
        obtain ⟨ih1, ih2, ih3⟩ := ih b o
        refine ⟨?_, ?_, ?_⟩
        · rw [hstep]; exact ih1
        · intro kv hkv
          rcases List.mem_cons.mp hkv with rfl | hmem
          · rw [hstep]; omega
          · rw [hstep]; exact ih2 kv hmem
        · rcases ih3 with heq | ⟨kv, hkv, heq, hlt⟩
          · exact Or.inl (by rw [hstep, heq])
          · exact Or.inr ⟨kv, List.mem_cons_of_mem kv0 hkv, by rw [hstep, heq], hlt⟩

theorem mapHas_of_mem {T : Type} (l : List (String × CacheEntry T)) (k : String)
    (e : CacheEntry T) (h : (k, e) ∈ l) : mapHas l k = true := by
  rw [mapHas, List.any_eq_true]
  exact ⟨(k, e), h, by simp⟩

theorem mapDelete_of_not_has {T : Type} (l : List (String × CacheEntry T)) (k : String)
    (h : mapHas l k = false) : mapDelete l k = l := by
  induction l with
  | nil => rfl
  | cons x t ih =>
      rw [mapHas, List.any_cons, Bool.or_eq_false_iff] at h
      rw [mapDelete, List.filter_cons]
      rw [if_pos (by simp only [h.1]; rfl)]
      rw [← mapDelete, ih (by rw [mapHas]; exact h.2)]

theorem mapHas_mapDelete_false {T : Type} (l : List (String × CacheEntry T)) (k q : String)
    (h : mapHas l k = false) : mapHas (mapDelete l q) k = false := by
  induction l with
  | nil => rfl
  | cons x t ih =>
      rw [mapHas, List.any_cons, Bool.or_eq_false_iff] at h
      rw [mapDelete, List.filter_cons]
      by_cases hx : (!(x.1 = q : Bool)) = true
      · rw [if_pos hx, mapHas, List.any_cons, Bool.or_eq_false_iff]
        exact ⟨h.1, by rw [← mapDelete] at *; exact ih h.2⟩
      · rw [if_neg hx]
        rw [← mapDelete]
        exact ih h.2

theorem mapDelete_length_nodup {T : Type} :
    ∀ (l : List (String × CacheEntry T)) (k : String) (e : CacheEntry T),
      (l.map Prod.fst).Nodup → (k, e) ∈ l →
      (mapDelete l k).length + 1 = l.length := by
  intro l
  induction l with
  | nil => intro k e _ hmem; simp at hmem
  | cons x t ih =>
      intro k e hnodup hmem
      rw [List.map_cons, List.nodup_cons] at hnodup
      rcases List.mem_cons.mp hmem with rfl | hmem'
      · rw [mapDelete, List.filter_cons, if_neg (by simp)]
        rw [← mapDelete]
        have hhas : mapHas t k = false := by
          rcases hh : mapHas t k with _ | _
          · rfl
          · exfalso
            rw [mapHas, List.any_eq_true] at hh
            obtain ⟨kv, hkv, hkeq⟩ := hh
            simp only [decide_eq_true_eq] at hkeq
            have hmm : kv.1 ∈ List.map Prod.fst t := List.mem_map_of_mem Prod.fst hkv
            rw [hkeq] at hmm
            exact hnodup.1 hmm
        rw [mapDelete_of_not_has t k hhas]
        rfl
      · have hxk : x.1 ≠ k := by
          intro hcontra
          exact hnodup.1 (hcontra ▸ List.mem_map_of_mem Prod.fst hmem')
        rw [mapDelete, List.filter_cons, if_pos (by simp [hxk])]
        rw [← mapDelete, List.length_cons, List.length_cons,
          ih k e hnodup.2 hmem']

/-- C7 (amended).  A `set` with a new key on a cache holding exactly
`maxEntries` entries evicts exactly one entry — one whose `lastAccessedAt` is
minimal — provided some entry was last accessed strictly before the `set`
call's clock reading (and keys are non-empty strings, as all generated cache
keys are); the new entry is appended and the size stays at `maxEntries`.
When every entry's `lastAccessedAt` equals the current clock value, the scan
finds no entry strictly below `Date.now()` and nothing is evicted (see the
counterexample), which is what the hypothesis excludes. -/
theorem cache_set_evicts_lru {T : Type} (c : EnhancedCache T) (k : String) (v : T)
    (ttl : Option Nat) (now : Nat)
    (hnodup : (c.cache.map Prod.fst).Nodup)
    (hfull : c.cache.length = c.maxSize)
    (hnew : mapHas c.cache k = false)
    (hkeys : ∀ kv ∈ c.cache, kv.1 ≠ "")
    (hold : ∃ kv ∈ c.cache, kv.2.lastAccessed < now) :
    ∃ victim ∈ c.cache,
      (∀ kv ∈ c.cache, victim.2.lastAccessed ≤ kv.2.lastAccessed)
      ∧ (c.set k v ttl now).cache
          = mapDelete c.cache victim.1
              ++ [(k, ⟨v, now, now + ttl.getD c.defaultTTL, 0, now⟩)]
      ∧ (c.set k v ttl now).cache.length = c.maxSize := by
  obtain ⟨kvold, hkvold, hlt⟩ := hold
  obtain ⟨hs1, hs2, hs3⟩ := evictScan_fold_spec c.cache now none
  rcases hs3 with heq | ⟨victim, hvmem, hveq, hvlt⟩
  · exfalso
    have := hs2 kvold hkvold
    rw [heq] at this
    simp only at this
    omega
  · refine ⟨victim, hvmem, ?_, ?_, ?_⟩
    · intro kv hkv
      have := hs2 kv hkv
      rw [hveq] at this
      simpa using this
    · rw [EnhancedCache.set]
      simp only
      rw [if_pos (by rw [hfull, hnew]; simp)]
      rw [EnhancedCache.evictLRU, evictScan, hveq]
      simp only
      rw [if_neg (hkeys victim hvmem)]
      simp only
      rw [mapSet, if_neg (by rw [mapHas_mapDelete_false c.cache k victim.1 hnew]; simp)]
    · rw [EnhancedCache.set]
      simp only
      rw [if_pos (by rw [hfull, hnew]; simp)]
      rw [EnhancedCache.evictLRU, evictScan, hveq]
      simp only
      rw [if_neg (hkeys victim hvmem)]
      simp only
      rw [mapSet, if_neg (by rw [mapHas_mapDelete_false c.cache k victim.1 hnew]; simp)]
      rw [List.length_append]
      have := mapDelete_length_nodup c.cache victim.1 victim.2 hnodup
        (by simpa using hvmem)
      simp only [List.length_cons, List.length_nil]
      omega

/-- Counterexample to C7 as stated: a cache at capacity (`maxEntries = 1`)
whose single entry was last accessed at the very clock value the `set` call
observes.  The eviction scan starts its running minimum at `Date.now()` and
only accepts strictly smaller values, so nothing is evicted and the cache
grows to 2 entries — the claimed "evicts exactly one entry" fails. -/
theorem cache_set_tie_evicts_nothing :
    tieCache.cache.length = tieCache.maxSize
    ∧ mapHas tieCache.cache "b" = false
    ∧ (tieCache.set "b" 8 none 5).cache.length = 2
    ∧ (tieCache.set "b" 8 none 5).cache.map Prod.fst = ["a", "b"] := by
  refine ⟨rfl, rfl, rfl, rfl⟩

/-- Witness for the amended C7 on a two-entry cache with distinct access
times: inserting "c" evicts exactly "a" (the least recently accessed). -/
theorem cache_set_evicts_lru_witness :
    ((lruCache.cache.map Prod.fst).Nodup
      ∧ lruCache.cache.length = lruCache.maxSize
      ∧ mapHas lruCache.cache "c" = false
      ∧ (∀ kv ∈ lruCache.cache, kv.1 ≠ "")
      ∧ (∃ kv ∈ lruCache.cache, kv.2.lastAccessed < 10))
    ∧ ∃ victim ∈ lruCache.cache,
        (∀ kv ∈ lruCache.cache, victim.2.lastAccessed ≤ kv.2.lastAccessed)
        ∧ (lruCache.set "c" 9 none 10).cache
            = mapDelete lruCache.cache victim.1
                ++ [("c", ⟨9, 10, 10 + (Option.none).getD lruCache.defaultTTL, 0, 10⟩)]
        ∧ (lruCache.set "c" 9 none 10).cache.length = lruCache.maxSize :=
  ⟨⟨by decide, by decide, by decide, by decide, by decide⟩,
   cache_set_evicts_lru lruCache "c" 9 none 10
     (by decide) (by decide) (by decide) (by decide) (by decide)⟩

-- ========================================================================
-- C8: credential caching and the 60-second safety margin
-- ========================================================================

/-- C8.  A first `getToken` call on an empty KV slot performs exactly one
upstream exchange and stores the token with expiry deadline
`now + (expires_in − 60)` (the upstream-reported duration minus the fixed
60-second margin); a second call while that credential is still valid
returns the cached token with zero exchanges, whatever its exchange oracle
would have answered. -/
theorem getToken_cached_single_exchange
    (now1 now2 : Nat) (resp : TokenResponse)
    (ex2 : Except String TokenResponse)
    (htok : resp.access_token ≠ "")
    (hmargin : 60 ≤ resp.expires_in)
    (hvalid : now2 < now1 + (resp.expires_in - 60)) :
    getAccessToken none now1 (.ok resp)
      = .ok (resp.access_token,
             some (resp.access_token, now1 + (resp.expires_in - 60)), 1)
    ∧ getAccessToken (some (resp.access_token, now1 + (resp.expires_in - 60))) now2 ex2
      = .ok (resp.access_token,
             some (resp.access_token, now1 + (resp.expires_in - 60)), 0) := by
  constructor
  · rw [getAccessToken.eq_def]
    simp only [kvGetToken]
    rw [if_neg htok]
  · rw [getAccessToken.eq_def]
    simp only [kvGetToken]
    rw [if_pos hvalid, if_neg htok]

/-- Witness for C8: a 3600-second credential fetched at time 0 and re-read at
time 1000, inside the 3540-second cached validity. -/
theorem getToken_cached_single_exchange_witness :
    (("tok0" : String) ≠ "" ∧ 60 ≤ 3600 ∧ 1000 < 0 + (3600 - 60))
    ∧ getAccessToken none 0 (.ok ⟨"tok0", 3600⟩)
        = .ok ("tok0", some ("tok0", 0 + (3600 - 60)), 1)
    ∧ getAccessToken (some ("tok0", 0 + (3600 - 60))) 1000 (.error "down")
        = .ok ("tok0", some ("tok0", 0 + (3600 - 60)), 0) :=
  ⟨⟨by decide, by decide, by decide⟩,
   (getToken_cached_single_exchange 0 1000 ⟨"tok0", 3600⟩ (.error "down")
      (by decide) (by decide) (by decide)).1,
   (getToken_cached_single_exchange 0 1000 ⟨"tok0", 3600⟩ (.error "down")
      (by decide) (by decide) (by decide)).2⟩

-- ========================================================================
-- C9: the limit parameter is validated, not clamped
-- ========================================================================

/-- Counterexample to C9 as stated: a request with `limit = 200` does not
proceed with the limit clamped to 100 — validation rejects it with a 400
response before any upstream call. -/
theorem limit_200_rejected_not_clamped :
    routeHandleLimit true 200 = ⟨400, false, none⟩
    ∧ (routeHandleLimit true 200).upstreamCalled = false
    ∧ limitSchema 200 = .error "Limit cannot exceed 100" := by
  refine ⟨rfl, rfl, rfl⟩

/-- C9 (amended).  Validation of the limit runs before the upstream fetch:
an in-range limit (1..100) passes through to the upstream call unchanged,
while an out-of-range numeric limit is rejected with a 400 validation error
and the upstream fetch is never reached — the limit is not clamped. -/
theorem limit_validated_before_upstream (n : Int) :
    (1 ≤ n ∧ n ≤ 100 → routeHandleLimit true n = ⟨200, true, some n⟩)
    ∧ (n < 1 ∨ 100 < n → routeHandleLimit true n = ⟨400, false, none⟩) := by
  constructor
  · intro ⟨h1, h2⟩
    rw [routeHandleLimit]
    simp only [Bool.not_true, Bool.false_eq_true, if_false]
    rw [limitSchema, if_neg (by omega), if_neg (by omega)]
  · intro h
    rw [routeHandleLimit]
    simp only [Bool.not_true, Bool.false_eq_true, if_false]
    rcases h with h | h
    · rw [limitSchema, if_pos (by omega)]
    · rw [limitSchema, if_neg (by omega), if_pos (by omega)]

/-- Witness for the amended C9 at limits 20 (kept unchanged) and 200
(rejected). -/
theorem limit_validated_before_upstream_witness :
    ((1 ≤ (20 : Int) ∧ (20 : Int) ≤ 100) ∧ ((200 : Int) < 1 ∨ (100 : Int) < 200))
    ∧ routeHandleLimit true 20 = ⟨200, true, some 20⟩
    ∧ routeHandleLimit true 200 = ⟨400, false, none⟩ :=
  ⟨⟨⟨by decide, by decide⟩, Or.inr (by decide)⟩,
   (limit_validated_before_upstream 20).1 ⟨by decide, by decide⟩,
   (limit_validated_before_upstream 200).2 (Or.inr (by decide))⟩

-- ========================================================================
-- C10: the cache key derivation is not injective
-- ========================================================================

/-- C10.  The listing cache key omits absent optional fields instead of
inserting a placeholder, so the distinct query tuples
(timeWindow = "week", no cursor) and (no timeWindow, cursor = "week") for the
same channel and sort collide on one key; consequently a response cached
under the first tuple's key is served for the second: a fresh `get` with the
second tuple's key after a `set` under the first returns the stored value. -/
theorem cacheKey_collision_serves_other_query :
    cacheKeysReddit "pics" "top" (some "week") none
      = cacheKeysReddit "pics" "top" none (some "week")
    ∧ ((some "week", (none : Option String)) ≠ ((none : Option String), some "week"))
    ∧ (((({ maxSize := 200, defaultTTL := 600000, cache := [] } : EnhancedCache Nat).set
          (cacheKeysReddit "pics" "top" (some "week") none) 42 none 0).get
          (cacheKeysReddit "pics" "top" none (some "week")) 1).1 = some 42) := by
  refine ⟨by decide, by decide, by decide⟩
